import Mathlib

/-!
Shallow embedding of the Enigma Hunter game engine
(src/public/game-engine.js, src/public/game.js, src/functions/index.js and
the data-upload scripts).  JS strings are modelled as lists of characters,
JS numbers occurring in the game logic are all integers and are modelled as
`Int`, and JS objects used as dictionaries are modelled as association
lists in insertion order (property update keeps the position of the key,
a new key is appended at the end, matching JS object semantics for the
non-numeric keys used here).  Firestore / DOM / timestamp effects are not
part of any claim and are omitted; the state mutated by the engine is the
`playerState` record, threaded explicitly.
-/

namespace EnigmaHunter

/-- JS strings, modelled as lists of characters. -/
abbrev Str := List Char

/-- A Lean string literal viewed as a JS string. -/
def s2l (s : String) : Str := s.data

/-- Model of `String.prototype.toLowerCase`, applied characterwise. -/
def lowerStr (s : Str) : Str := s.map Char.toLower

/-- Model of `haystack.includes(needle)`: contiguous substring occurrence. -/
def strIncludes (haystack needle : Str) : Bool := decide (needle <:+: haystack)

/-- JS `x || d` on an optional string: absent and empty are falsy. -/
def strOrDefault (v : Option Str) (d : Str) : Str :=
  match v with
  | some s => if s == [] then d else s
  | none => d

/-- Dictionary lookup (`m[k]`), first entry whose key equals `k`. -/
def getA {κ α : Type} [BEq κ] : List (κ × α) → κ → Option α
  | [], _ => none
  | (k2, v) :: rest, k => if k2 == k then some v else getA rest k

/-- Lookup with a default, the `m[k] || d` pattern for values that are
never falsy-but-present (the engine stores only non-negative levels). -/
def getAD {κ α : Type} [BEq κ] (m : List (κ × α)) (k : κ) (d : α) : α :=
  (getA m k).getD d

/-- Dictionary update (`m[k] = v`): updates in place, appends when new. -/
def setA {κ α : Type} [BEq κ] : List (κ × α) → κ → α → List (κ × α)
  | [], k, v => [(k, v)]
  | (k2, v2) :: rest, k, v =>
    if k2 == k then (k2, v) :: rest else (k2, v2) :: setA rest k v

/-- JSON fields that hold either a single numeric id or an array of ids
(`Array.isArray(x) ? x : [x]` in the engine). -/
inductive IdVal where
  | one (i : Int)
  | many (l : List Int)
deriving DecidableEq

/-- The array form produced by `Array.isArray(x) ? x : [x]`. -/
def IdVal.toList : IdVal → List Int
  | one i => [i]
  | many l => l

/-- JS truthiness of such a field: absent/null and the number 0 are falsy,
arrays (even empty ones) are truthy. -/
def idTruthy : Option IdVal → Bool
  | none => false
  | some (.one i) => i != 0
  | some (.many _) => true

/-- A dialogue-trigger requirement (character JSON, `requirements` array). -/
structure Requirement where
  requirement_type : Str
  required_object_id : Option IdVal := none
  required_detail_id : Option IdVal := none
deriving DecidableEq

/-- A dialogue trigger (character JSON, `triggers` array). -/
structure Trigger where
  trigger_keyword : Option Str := none
  success_response : Option Str := none
  fail_response : Option Str := none
  requirements : Option (List Requirement) := none
deriving DecidableEq

/-- One knowledge level of a character (character JSON, `levels` array). -/
structure CharLevel where
  level_number : Int
  knowledge_scope : Str := []
  is_defensive : Bool := false
  triggers : Option (List Trigger) := none
deriving DecidableEq

/-- A character (personagens documents). -/
structure Character where
  character_id : Int
  name : Option Str := none
  personality : Option Str := none
  area_id : Int := 0
  levels : Option (List CharLevel) := none
deriving DecidableEq

/-- One record inside `discovery_conditions`. -/
structure DiscCondition where
  location_id : Option Int := none
  area_id : Option Int := none
  detail_id : Option Int := none
  character_id : Option Int := none
deriving DecidableEq

/-- `discovery_conditions` is either an array of conditions or a single
condition object; the engine branches on `Array.isArray`. -/
inductive DiscoveryConditions where
  | arr (l : List DiscCondition)
  | obj (c : DiscCondition)
deriving DecidableEq

/-- A clue (pistas document). -/
structure Clue where
  clue_id : Int
  discovery_conditions : Option DiscoveryConditions := none
  is_key_evidence : Bool := false
deriving DecidableEq

/-- One examination level of a game object; only the number of levels is
relevant to the engine logic under verification. -/
structure ObjLevel where
  level_number : Int := 0
deriving DecidableEq

/-- A game object (objetos document). -/
structure GameObject where
  object_id : Int
  initial_location_id : Int := 0
  initial_area_id : Int := 0
  is_collectible : Bool := false
  levels : List ObjLevel := []
deriving DecidableEq

/-- An explorable detail of an area (ambientes documents). -/
structure Detail where
  detail_id : Int
  discovery_level_required : Int := 0
deriving DecidableEq

/-- An area of a location (ambientes documents). -/
structure Area where
  area_id : Int
  details : Option (List Detail) := none
  connected_areas : List Int := []
deriving DecidableEq

/-- A skill category (sistema-especializacao.json `categorias`): `niveis`
maps a numeric level key (the JSON object key, parsed by `parseInt`) to a
point threshold, kept in the listed order. -/
structure SkillCategory where
  nome_interno : Str
  niveis : List (Int × Int) := []
deriving DecidableEq

/-- The specialization system document. -/
structure Sistema where
  categorias : List SkillCategory := []
deriving DecidableEq

/-- `historia_base.solution_criteria`. -/
structure SolutionCriteria where
  culprit_id : Int
  motive_keywords : List Str := []
  method_keywords : List Str := []
deriving DecidableEq

/-- The static game data loaded from the `game_data` collection. -/
structure GameData where
  solution_criteria : SolutionCriteria
  personagens : List (Int × Character) := []
  objetos : List GameObject := []
  pistas : List Clue := []
  sistema_especializacao : Option Sistema := none
deriving DecidableEq

/-- The five skills with their initial 0 points, in declaration order. -/
def initialSkills : List (Str × Int) :=
  [(s2l "analise_evidencias", 0), (s2l "conhecimento_historico", 0),
   (s2l "interpretacao_comportamento", 0), (s2l "descoberta_ambiental", 0),
   (s2l "conexao_informacoes", 0)]

/-- The mutable `playerState` record.  `examinedObjects` stores
`objectId.toString()` in JS; the conversion is injective on the integer
ids used, so the ids are stored directly.  `lastSeenDetails` is keyed by
`areaId.toString()`, likewise modelled by the integer key. -/
structure PlayerState where
  currentLocation : Int := 0
  currentArea : Int := 0
  inventory : List Int := []
  discoveredClues : List Int := []
  characterLevels : List (Int × Int) := []
  locationLevels : List (Int × Int) := []
  objectLevels : List (Int × Int) := []
  lastSeenDetails : List (Int × List Int) := []
  skills : List (Str × Int) := initialSkills
  examinedObjects : List Int := []
  caseSolved : Bool := false
  finalScore : Option Int := none
deriving DecidableEq

/-- `GameEngine.getLocationDiscoveryLevel`. -/
def getLocationDiscoveryLevel (s : PlayerState) (areaId : Int) : Int :=
  getAD s.locationLevels areaId 0

/-- `GameEngine.increaseLocationDiscovery`. -/
def increaseLocationDiscovery (s : PlayerState) (areaId : Int) : PlayerState :=
  let currentLevel := getLocationDiscoveryLevel s areaId
  { s with locationLevels := setA s.locationLevels areaId (min (currentLevel + 1) 3) }

/-- `GameEngine.getObjectDiscoveryLevel`. -/
def getObjectDiscoveryLevel (s : PlayerState) (objectId : Int) : Int :=
  getAD s.objectLevels objectId 0

/-- `GameEngine.getObjectById`. -/
def getObjectById (g : GameData) (objectId : Int) : Option GameObject :=
  g.objetos.find? (fun obj => obj.object_id == objectId)

/-- `GameEngine.increaseObjectDiscoveryLevel`; returns whether the level
was raised together with the new state. -/
def increaseObjectDiscoveryLevel (g : GameData) (s : PlayerState) (objectId : Int) :
    Bool × PlayerState :=
  let currentLevel := getObjectDiscoveryLevel s objectId
  match getObjectById g objectId with
  | some obj =>
    if currentLevel < (obj.levels.length : Int) - 1 then
      (true, { s with objectLevels := setA s.objectLevels objectId (currentLevel + 1) })
    else (false, s)
  | none => (false, s)

/-- `GameEngine.getCharacterLevel`. -/
def getCharacterLevel (s : PlayerState) (characterId : Int) : Int :=
  getAD s.characterLevels characterId 0

/-- One condition record matching a (location, area, detail) triple;
`cond.location_id === locationId` etc., false when the field is absent. -/
def condMatchesDetail (cond : DiscCondition) (locationId areaId detailId : Int) : Bool :=
  cond.location_id == some locationId && cond.area_id == some areaId &&
    cond.detail_id == some detailId

/-- Whether a clue's `discovery_conditions` matches the triple: the engine
checks each member of an array, or the single object, and skips a clue with
no conditions (`typeof undefined` is not an object). -/
def clueMatchesDetail (clue : Clue) (locationId areaId detailId : Int) : Bool :=
  match clue.discovery_conditions with
  | some (.arr conds) => conds.any (fun c => condMatchesDetail c locationId areaId detailId)
  | some (.obj c) => condMatchesDetail c locationId areaId detailId
  | none => false

/-- Loop body of `GameEngine.discoverClueByDetail`: the first clue with a
matching condition that is not yet discovered is appended and returned;
a matching but already-discovered clue is passed over. -/
def discoverClueByDetailGo (locationId areaId detailId : Int) (s : PlayerState) :
    List Clue → Option Clue × PlayerState
  | [] => (none, s)
  | clue :: rest =>
    if clueMatchesDetail clue locationId areaId detailId &&
        !(s.discoveredClues.contains clue.clue_id) then
      (some clue, { s with discoveredClues := s.discoveredClues ++ [clue.clue_id] })
    else discoverClueByDetailGo locationId areaId detailId s rest

/-- `GameEngine.discoverClueByDetail`. -/
def discoverClueByDetail (g : GameData) (s : PlayerState) (locationId areaId detailId : Int) :
    Option Clue × PlayerState :=
  discoverClueByDetailGo locationId areaId detailId s g.pistas

/-- `conditions && conditions.character_id === characterId`: only the
single-object form can carry a `character_id` (an array's `character_id`
is `undefined`, never equal to a number). -/
def clueMatchesCharacter (clue : Clue) (characterId : Int) : Bool :=
  match clue.discovery_conditions with
  | some (.obj c) => c.character_id == some characterId
  | _ => false

/-- Loop of `GameEngine.discoverCluesByCharacter` over the clue list,
threading the `discoveredClues` array; returns the clues newly collected
and the final array. -/
def discoverCluesGo (characterId : Int) : List Clue → List Int → List Clue × List Int
  | [], discovered => ([], discovered)
  | clue :: rest, discovered =>
    if clueMatchesCharacter clue characterId && !(discovered.contains clue.clue_id) then
      let r := discoverCluesGo characterId rest (discovered ++ [clue.clue_id])
      (clue :: r.1, r.2)
    else discoverCluesGo characterId rest discovered

/-- `GameEngine.discoverCluesByCharacter`. -/
def discoverCluesByCharacter (g : GameData) (s : PlayerState) (characterId : Int) :
    List Clue × PlayerState :=
  let r := discoverCluesGo characterId g.pistas s.discoveredClues
  (r.1, { s with discoveredClues := r.2 })

/-- The static `skillMapping` table of `GameEngine.increaseSkillByObject`. -/
def skillMapping (objectId : Int) : Option Str :=
  if objectId == 1 then some (s2l "conhecimento_historico")
  else if objectId == 2 then some (s2l "conexao_informacoes")
  else if objectId == 3 then some (s2l "analise_evidencias")
  else if objectId == 4 then some (s2l "conhecimento_historico")
  else if objectId == 5 then some (s2l "conexao_informacoes")
  else if objectId == 6 then some (s2l "conhecimento_historico")
  else if objectId == 7 then some (s2l "conhecimento_historico")
  else if objectId == 8 then some (s2l "descoberta_ambiental")
  else if objectId == 9 then some (s2l "interpretacao_comportamento")
  else if objectId == 10 then some (s2l "analise_evidencias")
  else if objectId == 11 then some (s2l "analise_evidencias")
  else if objectId == 12 then some (s2l "conhecimento_historico")
  else if objectId == 13 then some (s2l "conexao_informacoes")
  else if objectId == 14 then some (s2l "conexao_informacoes")
  else if objectId == 15 then some (s2l "analise_evidencias")
  else if objectId == 16 then some (s2l "conexao_informacoes")
  else if objectId == 17 then some (s2l "conhecimento_historico")
  else if objectId == 18 then some (s2l "analise_evidencias")
  else if objectId == 19 then some (s2l "conexao_informacoes")
  else if objectId == 20 then some (s2l "analise_evidencias")
  else none

/-- `GameEngine.increaseSkillByObject`: bumps the mapped skill by 10
(capped at 100) whenever the object is mapped, and returns the skill name
only the first time the object is examined. -/
def increaseSkillByObject (s : PlayerState) (objectId : Int) : Option Str × PlayerState :=
  match skillMapping objectId with
  | some skill =>
    let s1 := { s with skills := setA s.skills skill (min (getAD s.skills skill 0 + 10) 100) }
    if !(s1.examinedObjects.contains objectId) then
      (some skill, { s1 with examinedObjects := s1.examinedObjects ++ [objectId] })
    else (none, s1)
  | none => (none, s)

/-- One requirement check inside `GameEngine.checkDialogueRequirements`;
a requirement of any other shape is skipped (never fails). -/
def reqSatisfied (s : PlayerState) (req : Requirement) : Bool :=
  if req.requirement_type == s2l "evidence" && idTruthy req.required_object_id then
    ((req.required_object_id.getD (.many [])).toList).any
      (fun objId => s.inventory.contains objId)
  else if req.requirement_type == s2l "knowledge" && idTruthy req.required_object_id then
    ((req.required_object_id.getD (.many [])).toList).any
      (fun objId => decide (0 < getObjectDiscoveryLevel s objId))
  else if req.requirement_type == s2l "observation" && idTruthy req.required_detail_id then
    ((req.required_detail_id.getD (.many [])).toList).any
      (fun detailId => s.lastSeenDetails.any (fun p => p.2.contains detailId))
  else true

/-- `GameEngine.checkDialogueRequirements`: a trigger without a
`requirements` field passes; otherwise every requirement must pass (the
JS loop returns `false` at the first failing one). -/
def checkDialogueRequirements (s : PlayerState) (trigger : Trigger) : Bool :=
  match trigger.requirements with
  | none => true
  | some reqs => reqs.all (fun req => reqSatisfied s req)

/-- The keyword test of `GameEngine.checkForTrigger`:
`keyword && questionLower.includes(keyword)` with
`keyword = (trigger.trigger_keyword || "").toLowerCase()`. -/
def keywordMatches (questionLower : Str) (t : Trigger) : Bool :=
  let keyword := lowerStr (t.trigger_keyword.getD [])
  keyword != [] && strIncludes questionLower keyword

/-- First trigger of a level whose keyword matches the question. -/
def firstTriggerIn (questionLower : Str) : List Trigger → Option Trigger
  | [] => none
  | t :: rest =>
    if keywordMatches questionLower t then some t
    else firstTriggerIn questionLower rest

/-- The (level, trigger) pair at which the nested loop of
`GameEngine.checkForTrigger` first returns: levels are scanned in order,
a level counts only when `level_number <= charLevel` and its `triggers`
field is present, and inside it the triggers are scanned in order. -/
def firstTriggerMatch (charLevel : Int) (questionLower : Str) :
    List CharLevel → Option (CharLevel × Trigger)
  | [] => none
  | lv :: rest =>
    if decide (lv.level_number ≤ charLevel) && lv.triggers.isSome then
      match firstTriggerIn questionLower (lv.triggers.getD []) with
      | some t => some (lv, t)
      | none => firstTriggerMatch charLevel questionLower rest
    else firstTriggerMatch charLevel questionLower rest

/-- The result object returned by `GameEngine.checkForTrigger`; a missing
`newClues` field is modelled as the empty list. -/
structure TriggerResult where
  response : Str
  levelUp : Bool
  newClues : List Clue := []
deriving DecidableEq

/-- The body executed by `GameEngine.checkForTrigger` once a trigger
matched.  In the defensive-success branch the character level is raised
only below the last level; `discoverCluesByCharacter` then runs once in
the `if` body and once more while building the returned object (the
intermediate `saveGame` is I/O and not modelled). -/
def fireTrigger (g : GameData) (s : PlayerState) (c : Character) (charLevel : Int)
    (lv : CharLevel) (t : Trigger) : TriggerResult × PlayerState :=
  if lv.is_defensive then
    if checkDialogueRequirements s t then
      let successResponse := strOrDefault t.success_response (s2l "Você descobriu algo importante!")
      if charLevel < ((c.levels.getD []).length : Int) - 1 then
        let s1 := { s with characterLevels := setA s.characterLevels c.character_id (charLevel + 1) }
        let r1 := discoverCluesByCharacter g s1 c.character_id
        let r2 := discoverCluesByCharacter g r1.2 c.character_id
        ({ response := successResponse, levelUp := true, newClues := r2.1 }, r2.2)
      else
        let r2 := discoverCluesByCharacter g s c.character_id
        ({ response := successResponse, levelUp := true, newClues := r2.1 }, r2.2)
    else
      ({ response := strOrDefault t.fail_response (s2l "Não tenho nada a dizer sobre isso."),
         levelUp := false, newClues := [] }, s)
  else
    ({ response := strOrDefault t.success_response (s2l "Interessante pergunta..."),
       levelUp := false, newClues := [] }, s)

/-- `GameEngine.checkForTrigger`: the loops return at the first matching
trigger and mutate nothing before that point, so the function is the
first match followed by `fireTrigger`; with no match it returns `null`
and leaves the state untouched. -/
def checkForTrigger (g : GameData) (s : PlayerState) (c : Character) (playerQuestion : Str) :
    Option TriggerResult × PlayerState :=
  let charLevel := getCharacterLevel s c.character_id
  let questionLower := lowerStr playerQuestion
  match firstTriggerMatch charLevel questionLower (c.levels.getD []) with
  | none => (none, s)
  | some (lv, t) =>
    let r := fireTrigger g s c charLevel lv t
    (some r.1, r.2)

/-- `GameEngine.collectObject`. -/
def collectObject (s : PlayerState) (objectId : Int) : Bool × PlayerState :=
  if !(s.inventory.contains objectId) then
    (true, { s with inventory := s.inventory ++ [objectId] })
  else (false, s)

/-- `GameEngine.markDetailAsSeen`: a missing per-area array is created
empty before the membership test, so nothing changes exactly when the
detail is already recorded. -/
def markDetailAsSeen (s : PlayerState) (areaId detailId : Int) : PlayerState :=
  let cur := getAD s.lastSeenDetails areaId []
  if !(cur.contains detailId) then
    { s with lastSeenDetails := setA s.lastSeenDetails areaId (cur ++ [detailId]) }
  else s

/-- Digit-prefix accumulator of `parseInt`: consumes decimal digits and
stops at the first non-digit; `none` when no digit was consumed. -/
def parseDigits : List Char → Option Nat → Option Nat
  | [], acc => acc
  | ch :: rest, acc =>
    if ch.isDigit then parseDigits rest (some ((acc.getD 0) * 10 + (ch.toNat - 48)))
    else acc

/-- Model of JS `parseInt(s)` on base-10 input: leading whitespace is
skipped, an optional sign is read, then the longest digit prefix; `none`
models `NaN` (never equal to any number). -/
def jsParseInt (s : Str) : Option Int :=
  let s1 := s.dropWhile (fun ch => ch == ' ' || ch == '\t' || ch == '\n' || ch == '\r')
  match s1 with
  | '-' :: rest => (parseDigits rest none).map (fun n => -(n : Int))
  | '+' :: rest => (parseDigits rest none).map (fun n => (n : Int))
  | _ => (parseDigits s1 none).map (fun n => (n : Int))

/-- The object returned by `GameEngine.processAccusation`. -/
structure AccusationResult where
  success : Bool
  score : Int
  culpritCorrect : Bool
  motiveCorrect : Bool
  methodCorrect : Bool
deriving DecidableEq

/-- `GameEngine.processAccusation` (the `solvedAt` timestamp is real-time
I/O and not modelled). -/
def processAccusation (g : GameData) (s : PlayerState) (suspectId motive method : Str) :
    AccusationResult × PlayerState :=
  let criteria := g.solution_criteria
  let culpritCorrect := jsParseInt suspectId == some criteria.culprit_id
  let motiveLower := lowerStr motive
  let motiveCorrect :=
    criteria.motive_keywords.any (fun keyword => strIncludes motiveLower (lowerStr keyword))
  let methodLower := lowerStr method
  let methodCorrect :=
    criteria.method_keywords.any (fun keyword => strIncludes methodLower (lowerStr keyword))
  let score := (if culpritCorrect then (50 : Int) else 0) +
    (if motiveCorrect then 25 else 0) + (if methodCorrect then 25 else 0)
  let success := decide (score ≥ 75)
  let s2 := if success then { s with caseSolved := true, finalScore := some score } else s
  ({ success := success, score := score, culpritCorrect := culpritCorrect,
     motiveCorrect := motiveCorrect, methodCorrect := methodCorrect }, s2)

/-- The per-skill record built by `GameEngine.getSkillInfo` (display name,
description and the constant `maxPoints` are presentational and omitted). -/
structure SkillInfo where
  id : Str
  level : Int
  points : Int
deriving DecidableEq

/-- `categories.find(c => c.nome_interno === skillId)` over
`sistema_especializacao?.categorias || []`. -/
def findCategory (g : GameData) (skillId : Str) : Option SkillCategory :=
  ((g.sistema_especializacao.map Sistema.categorias).getD []).find?
    (fun c => c.nome_interno == skillId)

/-- The inner loop of `GameEngine.getSkillInfo` over
`Object.entries(category.niveis)`: each entry whose threshold is reached
overwrites `skillLevel`, which starts at 0. -/
def computeSkillLevel (niveis : List (Int × Int)) (points : Int) : Int :=
  niveis.foldl (fun acc p => if points ≥ p.2 then p.1 else acc) 0

/-- `GameEngine.getSkillInfo`. -/
def getSkillInfo (g : GameData) (s : PlayerState) : List SkillInfo :=
  s.skills.map (fun sp =>
    let category := findCategory g sp.1
    let skillLevel :=
      match category with
      | some c => computeSkillLevel c.niveis sp.2
      | none => 0
    { id := sp.1, level := skillLevel, points := sp.2 })

/-- `UIController.buildOptions`, details section: the filter over
`area.details || []` offering a detail for exploration. -/
def visibleDetails (s : PlayerState) (area : Area) : List Detail :=
  (area.details.getD []).filter
    (fun d => decide (d.discovery_level_required ≤ getLocationDiscoveryLevel s s.currentArea))

/-- `UIController.sendMessage`, final skill bump: 5 points of
`interpretacao_comportamento`, capped at 100. -/
def sendMessageSkillGain (s : PlayerState) : PlayerState :=
  let old := getAD s.skills (s2l "interpretacao_comportamento") 0
  { s with skills := setA s.skills (s2l "interpretacao_comportamento") (min (old + 5) 100) }

/-- Parsed JSON values, as read by the upload script (numbers in the
shipped data files are integers). -/
inductive JSVal where
  | nullVal
  | boolVal (b : Bool)
  | num (n : Int)
  | str (s : Str)
  | arr (l : List JSVal)
  | obj (fields : List (Str × JSVal))

/-- Decimal key string of a numeric JS object key. -/
def intKey (n : Int) : Str := s2l (toString n)

/-- The object key `location.location_id` is stored under (a missing or
non-numeric id yields the JS key of `undefined`). -/
def locationKey (v : JSVal) : Str :=
  match v with
  | .obj fields =>
    match getA fields (s2l "location_id") with
    | some (.num n) => intKey n
    | _ => s2l "undefined"
  | _ => s2l "undefined"

/-- `uploadHistoriaBase`: the parsed file is the written document. -/
def uploadHistoriaBaseDoc (data : JSVal) : JSVal := data

/-- `uploadSistemaEspecializacao`: the parsed file is the written document. -/
def uploadSistemaEspecializacaoDoc (data : JSVal) : JSVal := data

/-- `uploadObjetos`: the parsed array is wrapped as `{ items: data }`. -/
def uploadObjetosDoc (data : JSVal) : JSVal := .obj [(s2l "items", data)]

/-- `uploadPistas`: the parsed array is wrapped as `{ items: data }`. -/
def uploadPistasDoc (data : JSVal) : JSVal := .obj [(s2l "items", data)]

/-- One file's contribution to `allAmbientes`: an array file stores each
location under its `location_id` key, any other shape is ignored. -/
def insertLocations (acc : List (Str × JSVal)) (data : JSVal) : List (Str × JSVal) :=
  match data with
  | .arr locs => locs.foldl (fun a loc => setA a (locationKey loc) loc) acc
  | _ => acc

/-- `uploadAmbientes`: the parsed ambientes files are merged into one
id-keyed document (`uploadPersonagens` is the same code over
`character_id`). -/
def uploadAmbientesDoc (files : List JSVal) : JSVal :=
  .obj (files.foldl insertLocations [])

/-- The provider request of `generateNPCDialogue` in functions/index.js:
one system and one user message for the fixed model (the constant
`temperature`/`max_tokens` sampling numbers are floats passed through
verbatim and carry no logic). -/
structure ChatRequest where
  model : Str
  systemContent : Str
  userContent : Str
deriving DecidableEq

/-- Outcome of the provider call: an error, or a completion whose
`choices[0]?.message?.content` is `none` when missing. -/
inductive ProviderResult where
  | err
  | ok (content : Option Str)
deriving DecidableEq

/-- The knowledge accumulation loop of `generateNPCDialogue`: the
`knowledge_scope` of every level with `level_number <= characterLevel`,
each followed by a space, concatenated in order. -/
def knowledgeFor (c : Character) (characterLevel : Int) : Str :=
  (c.levels.getD []).foldl
    (fun acc lv =>
      if lv.level_number ≤ characterLevel then acc ++ lv.knowledge_scope ++ s2l " " else acc)
    []

/-- The system prompt template of `generateNPCDialogue`. -/
def buildSystemPrompt (charName charPersonality knowledge : Str) : Str :=
  s2l "\nVocê é " ++ charName ++ s2l ", um personagem em um jogo de mistério.\n\nSua personalidade: " ++
    charPersonality ++ s2l "\n\nO que você sabe (baseado no nível atual do jogador): " ++
    knowledge ++ s2l "\n\nRegras importantes:\n1. Responda sempre em primeira pessoa como " ++
    charName ++ s2l "\n2. Seja fiel à sua personalidade\n3. Só compartilhe informações que você conhece no nível atual\n4. Mantenha respostas concisas (1-4 frases)\n5. Use pulsação narrativa para incluir detalhe de linguagem corporal ou expressão.\n6. Se a pergunta busca informações que você não deveria saber, demonstre confusão ou negue conhecimento\n7. Sempre responda em português brasileiro\n8. Nunca use palavras em inglês\n"

/-- The user prompt template of `generateNPCDialogue`. -/
def buildUserPrompt (charName question : Str) : Str :=
  s2l "\nUm jogador perguntou: \"" ++ question ++
    s2l "\"\n\nComo " ++ charName ++
    s2l ", responda de acordo com seu conhecimento atual e personalidade.\nSe a pergunta for sobre algo que você não deveria saber, demonstre confusão ou negue conhecimento de maneira natural.\n"

/-- The request `generateNPCDialogue` sends: pure template substitution of
the character name (`character.name || "Personagem"`), the personality
(`character.personality || ""`), the accumulated knowledge and the
question. -/
def npcDialogueRequest (c : Character) (characterLevel : Int) (question : Str) : ChatRequest :=
  let charName := strOrDefault c.name (s2l "Personagem")
  let charPersonality := strOrDefault c.personality []
  { model := s2l "gpt-3.5-turbo",
    systemContent := buildSystemPrompt charName charPersonality (knowledgeFor c characterLevel),
    userContent := buildUserPrompt charName question }

/-- `generateNPCDialogue` in functions/index.js, with the HTTP provider as
an oracle: without an API key a fixed sentence is returned; on a thrown
error a fixed sentence is returned; otherwise the completion content, the
fixed sentence replacing a missing or empty (falsy) content. -/
def generateNPCDialogue (hasApiKey : Bool) (provider : ChatRequest → ProviderResult)
    (c : Character) (characterLevel : Int) (question : Str) : Str :=
  if !hasApiKey then s2l "Não consigo responder a isso no momento."
  else
    match provider (npcDialogueRequest c characterLevel question) with
    | .err => s2l "Não sei o que dizer sobre isso."
    | .ok content =>
      match content with
      | some t => if t == [] then s2l "Não sei o que dizer sobre isso." else t
      | none => s2l "Não sei o que dizer sobre isso."

/-! ### Dictionary lemmas -/

theorem getA_setA_self {κ α : Type} [BEq κ] [LawfulBEq κ] (m : List (κ × α)) (k : κ) (v : α) :
    getA (setA m k v) k = some v := by
  induction m with
  | nil => simp [setA, getA]
  | cons p rest ih =>
    rcases p with ⟨k2, v2⟩
    by_cases h : k2 = k
    · subst h; simp [setA, getA]
    · simp [setA, getA, beq_eq_false_iff_ne.mpr h, ih]

theorem getA_setA_ne {κ α : Type} [BEq κ] [LawfulBEq κ] (m : List (κ × α)) (k k2 : κ) (v : α)
    (h : k2 ≠ k) : getA (setA m k v) k2 = getA m k2 := by
  induction m with
  | nil => simp [setA, getA, beq_eq_false_iff_ne.mpr (Ne.symm h)]
  | cons p rest ih =>
    rcases p with ⟨ka, va⟩
    by_cases hk : ka = k
    · subst hk
      have : (ka == k2) = false := beq_eq_false_iff_ne.mpr (fun he => h (he ▸ rfl))
      simp [setA, getA, this]
    · by_cases h2 : ka = k2
      · subst h2; simp [setA, getA, beq_eq_false_iff_ne.mpr hk]
      · simp [setA, getA, beq_eq_false_iff_ne.mpr hk, beq_eq_false_iff_ne.mpr h2, ih]

theorem mem_setA {κ α : Type} [BEq κ] [LawfulBEq κ] (m : List (κ × α)) (k : κ) (v : α)
    (p : κ × α) (hp : p ∈ setA m k v) : p ∈ m ∨ p = (k, v) := by
  induction m with
  | nil =>
    simp [setA] at hp
    right; exact hp
  | cons q rest ih =>
    rcases q with ⟨ka, va⟩
    by_cases hk : ka = k
    · subst hk
      simp [setA] at hp
      rcases hp with h1 | h2
      · right; exact h1
      · left; exact List.mem_cons_of_mem _ h2
    · simp [setA, beq_eq_false_iff_ne.mpr hk] at hp
      rcases hp with h1 | h2
      · left; simp [h1]
      · rcases ih h2 with h3 | h4
        · left; exact List.mem_cons_of_mem _ h3
        · right; exact h4

theorem getA_mem {κ α : Type} [BEq κ] [LawfulBEq κ] (m : List (κ × α)) (k : κ) (v : α)
    (h : getA m k = some v) : (k, v) ∈ m := by
  induction m with
  | nil => simp [getA] at h
  | cons q rest ih =>
    rcases q with ⟨ka, va⟩
    by_cases hk : ka = k
    · subst hk
      simp [getA] at h
      simp [h]
    · simp [getA, beq_eq_false_iff_ne.mpr hk] at h
      exact List.mem_cons_of_mem _ (ih h)

theorem nodup_append_one {α : Type} (l : List α) (x : α) (hl : l.Nodup) (hx : x ∉ l) :
    (l ++ [x]).Nodup := by
  simp [List.nodup_append]
  exact ⟨hl, hx⟩

/-! ### Trigger-scan lemmas -/

theorem firstTriggerIn_isSome_iff (qLower : Str) (ts : List Trigger) :
    (firstTriggerIn qLower ts).isSome = true ↔ ∃ t ∈ ts, keywordMatches qLower t = true := by
  induction ts with
  | nil => simp [firstTriggerIn]
  | cons t rest ih =>
    by_cases h : keywordMatches qLower t
    · simp [firstTriggerIn, h]
    · simp only [Bool.not_eq_true] at h
      simp [firstTriggerIn, h, ih]

theorem firstTriggerIn_mem (qLower : Str) (ts : List Trigger) (t : Trigger)
    (h : firstTriggerIn qLower ts = some t) : t ∈ ts ∧ keywordMatches qLower t = true := by
  induction ts with
  | nil => simp [firstTriggerIn] at h
  | cons t2 rest ih =>
    by_cases hk : keywordMatches qLower t2
    · simp [firstTriggerIn, hk] at h
      subst h
      exact ⟨List.mem_cons_self _ _, hk⟩
    · simp only [Bool.not_eq_true] at hk
      simp [firstTriggerIn, hk] at h
      exact ⟨List.mem_cons_of_mem _ (ih h).1, (ih h).2⟩

theorem firstTriggerMatch_isSome_iff (charLevel : Int) (qLower : Str) (lvls : List CharLevel) :
    (firstTriggerMatch charLevel qLower lvls).isSome = true ↔
      ∃ lv ∈ lvls, lv.level_number ≤ charLevel ∧
        ∃ t ∈ lv.triggers.getD [], keywordMatches qLower t = true := by
  induction lvls with
  | nil => simp [firstTriggerMatch]
  | cons lv rest ih =>
    by_cases h1 : lv.level_number ≤ charLevel
    · cases htr : lv.triggers with
      | none => simp [firstTriggerMatch, h1, htr, ih]
      | some ts =>
        cases hft : firstTriggerIn qLower ts with
        | some t =>
          have hmem := firstTriggerIn_mem qLower ts t hft
          constructor
          · intro _
            refine ⟨lv, List.mem_cons_self _ _, h1, ?_⟩
            rw [htr]
            exact ⟨t, hmem.1, hmem.2⟩
          · intro _
            simp [firstTriggerMatch, h1, htr, hft]
        | none =>
          have hnone := firstTriggerIn_isSome_iff qLower ts
          simp [hft] at hnone
          simp [firstTriggerMatch, h1, htr, hft, ih, hnone]
          intro x hx hkx
          rw [hnone x hx] at hkx
          simp at hkx
    · simp [firstTriggerMatch, h1, ih]

theorem keywordMatches_iff (qLower : Str) (t : Trigger) :
    keywordMatches qLower t = true ↔
      lowerStr (t.trigger_keyword.getD []) ≠ [] ∧
        lowerStr (t.trigger_keyword.getD []) <:+: qLower := by
  simp [keywordMatches, strIncludes, Bool.and_eq_true, bne_iff_ne]

/-! ### Clue-discovery lemmas -/

theorem discoverCluesGo_mem_mono (characterId : Int) (cs : List Clue) (d : List Int) (x : Int)
    (hx : x ∈ d) : x ∈ (discoverCluesGo characterId cs d).2 := by
  induction cs generalizing d with
  | nil => simpa [discoverCluesGo] using hx
  | cons clue rest ih =>
    by_cases h1 : clueMatchesCharacter clue characterId = true
    · by_cases h2 : clue.clue_id ∈ d
      · simp [discoverCluesGo, h1, h2]
        exact ih _ hx
      · simp [discoverCluesGo, h1, h2]
        exact ih _ (List.mem_append_left _ hx)
    · simp [discoverCluesGo, h1]
      exact ih _ hx

theorem discoverCluesGo_mem_matching (characterId : Int) (cs : List Clue) (d : List Int)
    (clue : Clue) (hc : clue ∈ cs) (hm : clueMatchesCharacter clue characterId = true) :
    clue.clue_id ∈ (discoverCluesGo characterId cs d).2 := by
  induction cs generalizing d with
  | nil => simp at hc
  | cons c2 rest ih =>
    rcases List.mem_cons.mp hc with h1 | h2
    · subst h1
      by_cases hd : clue.clue_id ∈ d
      · by_cases hm2 : clueMatchesCharacter clue characterId = true
        · simp [discoverCluesGo, hm2, hd]
          exact discoverCluesGo_mem_mono _ _ _ _ hd
        · simp [discoverCluesGo, hm2]
          exact discoverCluesGo_mem_mono _ _ _ _ hd
      · simp [discoverCluesGo, hm, hd]
        exact discoverCluesGo_mem_mono _ _ _ _ (List.mem_append_right _ (by simp))
    · by_cases hm2 : clueMatchesCharacter c2 characterId = true
      · by_cases hd2 : c2.clue_id ∈ d
        · simp [discoverCluesGo, hm2, hd2]
          exact ih _ h2
        · simp [discoverCluesGo, hm2, hd2]
          exact ih _ h2
      · simp [discoverCluesGo, hm2]
        exact ih _ h2

theorem discoverCluesGo_nodup (characterId : Int) (cs : List Clue) (d : List Int)
    (hd : d.Nodup) : (discoverCluesGo characterId cs d).2.Nodup := by
  induction cs generalizing d with
  | nil => simpa [discoverCluesGo] using hd
  | cons clue rest ih =>
    by_cases h1 : clueMatchesCharacter clue characterId = true
    · by_cases h2 : clue.clue_id ∈ d
      · simp [discoverCluesGo, h1, h2]
        exact ih _ hd
      · simp [discoverCluesGo, h1, h2]
        exact ih _ (nodup_append_one d _ hd h2)
    · simp [discoverCluesGo, h1]
      exact ih _ hd

theorem checkDialogueRequirements_eq_all (s : PlayerState) (t : Trigger) :
    checkDialogueRequirements s t = (t.requirements.getD []).all (fun r => reqSatisfied s r) := by
  cases h : t.requirements with
  | none => simp [checkDialogueRequirements, h]
  | some reqs => simp [checkDialogueRequirements, h]

/-! ### Claim C1 -/

/-- C1: `checkForTrigger` returns a trigger result exactly when some
trigger belonging to a level whose `level_number` is at most the player's
current level for the character has a non-empty `trigger_keyword` that,
lowercased, occurs as a substring of the lowercased question; when no such
trigger exists it returns `null` (`none`). -/
theorem checkForTrigger_result_iff (g : GameData) (s : PlayerState) (c : Character) (q : Str) :
    (checkForTrigger g s c q).1 ≠ none ↔
      ∃ lv ∈ c.levels.getD [], lv.level_number ≤ getCharacterLevel s c.character_id ∧
        ∃ t ∈ lv.triggers.getD [], lowerStr (t.trigger_keyword.getD []) ≠ [] ∧
          lowerStr (t.trigger_keyword.getD []) <:+: lowerStr q := by
  have hmain : (checkForTrigger g s c q).1 ≠ none ↔
      (firstTriggerMatch (getCharacterLevel s c.character_id) (lowerStr q)
        (c.levels.getD [])).isSome = true := by
    cases h : firstTriggerMatch (getCharacterLevel s c.character_id) (lowerStr q)
        (c.levels.getD []) with
    | none => simp [checkForTrigger, h]
    | some p => simp [checkForTrigger, h]
  rw [hmain, firstTriggerMatch_isSome_iff]
  simp only [keywordMatches_iff]

/-! ### Claim C2 -/

/-- C2: when the trigger at which `checkForTrigger` returns sits in a
defensive level, the success branch runs (success response, character
level raised by exactly one when below the last level, the character's
clues discovered) exactly when every requirement of the trigger is
satisfied; otherwise the fail response is returned with the player state
unchanged. -/
theorem checkForTrigger_defensive_branch (g : GameData) (s : PlayerState) (c : Character)
    (q : Str) (lv : CharLevel) (t : Trigger)
    (hmatch : firstTriggerMatch (getCharacterLevel s c.character_id) (lowerStr q)
        (c.levels.getD []) = some (lv, t))
    (hdef : lv.is_defensive = true) :
    ((∀ r ∈ t.requirements.getD [], reqSatisfied s r = true) →
      ∃ res s2, checkForTrigger g s c q = (some res, s2) ∧
        res.response = strOrDefault t.success_response (s2l "Você descobriu algo importante!") ∧
        res.levelUp = true ∧
        getCharacterLevel s2 c.character_id =
          (if getCharacterLevel s c.character_id < ((c.levels.getD []).length : Int) - 1
            then getCharacterLevel s c.character_id + 1
            else getCharacterLevel s c.character_id) ∧
        (∀ clue ∈ g.pistas, clueMatchesCharacter clue c.character_id = true →
          clue.clue_id ∈ s2.discoveredClues)) ∧
    ((¬ ∀ r ∈ t.requirements.getD [], reqSatisfied s r = true) →
      checkForTrigger g s c q =
        (some { response := strOrDefault t.fail_response (s2l "Não tenho nada a dizer sobre isso."),
                levelUp := false, newClues := [] }, s)) := by
  have hcdr : checkDialogueRequirements s t = true ↔
      ∀ r ∈ t.requirements.getD [], reqSatisfied s r = true := by
    rw [checkDialogueRequirements_eq_all]
    exact List.all_eq_true
  have hck : checkForTrigger g s c q =
      (some (fireTrigger g s c (getCharacterLevel s c.character_id) lv t).1,
        (fireTrigger g s c (getCharacterLevel s c.character_id) lv t).2) := by
    simp only [checkForTrigger, hmatch]
  constructor
  · intro hall
    have hreq : checkDialogueRequirements s t = true := hcdr.mpr hall
    by_cases hlt : getCharacterLevel s c.character_id < ((c.levels.getD []).length : Int) - 1
    · refine ⟨(fireTrigger g s c (getCharacterLevel s c.character_id) lv t).1,
        (fireTrigger g s c (getCharacterLevel s c.character_id) lv t).2, hck, ?_, ?_, ?_, ?_⟩
      · simp [fireTrigger, hdef, hreq, hlt]
      · simp [fireTrigger, hdef, hreq, hlt]
      · rw [if_pos hlt]
        simp only [fireTrigger, hdef, hreq, hlt, if_true]
        simp [discoverCluesByCharacter, getCharacterLevel, getAD, getA_setA_self]
      · intro clue hclue hm
        simp only [fireTrigger, hdef, hreq, hlt, if_true, if_pos]
        simp [discoverCluesByCharacter]
        exact discoverCluesGo_mem_mono _ _ _ _
          (discoverCluesGo_mem_matching _ _ _ clue hclue hm)
    · refine ⟨(fireTrigger g s c (getCharacterLevel s c.character_id) lv t).1,
        (fireTrigger g s c (getCharacterLevel s c.character_id) lv t).2, hck, ?_, ?_, ?_, ?_⟩
      · simp [fireTrigger, hdef, hreq, hlt]
      · simp [fireTrigger, hdef, hreq, hlt]
      · rw [if_neg hlt]
        simp only [fireTrigger, hdef, hreq, hlt, if_true, if_neg hlt]
        simp [discoverCluesByCharacter, getCharacterLevel, getAD]
      · intro clue hclue hm
        simp only [fireTrigger, hdef, hreq, hlt, if_true, if_neg]
        simp [discoverCluesByCharacter]
        exact discoverCluesGo_mem_matching _ _ _ clue hclue hm
  · intro hnall
    have hreq : checkDialogueRequirements s t = false := by
      cases h : checkDialogueRequirements s t with
      | false => rfl
      | true => exact absurd (hcdr.mp h) hnall
    rw [hck]
    simp [fireTrigger, hdef, hreq]

/-- Concrete defensive trigger (shaped like the shipped Matilda data). -/
def c2Trigger : Trigger :=
  { trigger_keyword := some (s2l "vinho"), success_response := some (s2l "sim, o vinho"),
    fail_response := some (s2l "nada a dizer") }

/-- Concrete defensive level carrying only that trigger. -/
def c2Level : CharLevel :=
  { level_number := 0, is_defensive := true, triggers := some [c2Trigger] }

/-- Concrete character with a second level to allow a level-up. -/
def c2Char : Character :=
  { character_id := 3, levels := some [c2Level, { level_number := 1 }] }

/-- Concrete game data with one clue tied to that character. -/
def c2Game : GameData :=
  { solution_criteria := { culprit_id := 0 },
    pistas := [{ clue_id := 7,
                 discovery_conditions := some (.obj { character_id := some 3 }) }] }

/-- The fresh player state. -/
def c2State : PlayerState := {}

/-- Witness for C2: on the concrete data the question contains the
keyword, the trigger has no requirements, and the success branch fires. -/
theorem checkForTrigger_defensive_branch_witness :
    ∃ res s2, checkForTrigger c2Game c2State c2Char (s2l "onde esta o Vinho?") = (some res, s2) ∧
      res.response = strOrDefault c2Trigger.success_response (s2l "Você descobriu algo importante!") ∧
      res.levelUp = true ∧
      getCharacterLevel s2 c2Char.character_id =
        (if getCharacterLevel c2State c2Char.character_id <
              ((c2Char.levels.getD []).length : Int) - 1
          then getCharacterLevel c2State c2Char.character_id + 1
          else getCharacterLevel c2State c2Char.character_id) ∧
      (∀ clue ∈ c2Game.pistas, clueMatchesCharacter clue c2Char.character_id = true →
        clue.clue_id ∈ s2.discoveredClues) :=
  (checkForTrigger_defensive_branch c2Game c2State c2Char (s2l "onde esta o Vinho?") c2Level
      c2Trigger (by decide) (by decide)).1 (by decide)

/-! ### Claim C3 -/

/-- C3: `processAccusation` succeeds exactly when the weighted score
50·[culprit id matches] + 25·[a motive keyword occurs] + 25·[a method
keyword occurs] reaches 75, and on success records `caseSolved` and the
final score. -/
theorem processAccusation_success_iff (g : GameData) (s : PlayerState)
    (suspectId motive method : Str) :
    ((processAccusation g s suspectId motive method).1.success = true ↔
      50 * (if jsParseInt suspectId = some g.solution_criteria.culprit_id then (1 : Int) else 0) +
        25 * (if ∃ kw ∈ g.solution_criteria.motive_keywords,
                lowerStr kw <:+: lowerStr motive then (1 : Int) else 0) +
        25 * (if ∃ kw ∈ g.solution_criteria.method_keywords,
                lowerStr kw <:+: lowerStr method then (1 : Int) else 0) ≥ 75) ∧
    ((processAccusation g s suspectId motive method).1.success = true →
      (processAccusation g s suspectId motive method).2.caseSolved = true ∧
      (processAccusation g s suspectId motive method).2.finalScore =
        some (processAccusation g s suspectId motive method).1.score) := by
  by_cases h1 : jsParseInt suspectId = some g.solution_criteria.culprit_id <;>
    by_cases h2 : ∃ kw ∈ g.solution_criteria.motive_keywords,
        lowerStr kw <:+: lowerStr motive <;>
      by_cases h3 : ∃ kw ∈ g.solution_criteria.method_keywords,
          lowerStr kw <:+: lowerStr method <;>
        simp [processAccusation, h1, h2, h3, List.any_eq_true, strIncludes, beq_iff_eq]

/-- Fresh default player state, used by the concrete witnesses. -/
def freshState : PlayerState := {}

/-- Concrete solution criteria. -/
def c3Game : GameData :=
  { solution_criteria :=
      { culprit_id := 3, motive_keywords := [s2l "herança"],
        method_keywords := [s2l "veneno"] } }

/-- Witness for C3: a fully correct accusation succeeds, marks the case
solved and stores the score. -/
theorem processAccusation_success_witness :
    (processAccusation c3Game freshState (s2l "3") (s2l "pela herança")
        (s2l "usou veneno")).2.caseSolved = true ∧
    (processAccusation c3Game freshState (s2l "3") (s2l "pela herança")
        (s2l "usou veneno")).2.finalScore =
      some (processAccusation c3Game freshState (s2l "3") (s2l "pela herança")
        (s2l "usou veneno")).1.score :=
  (processAccusation_success_iff c3Game freshState (s2l "3") (s2l "pela herança")
    (s2l "usou veneno")).2 (by decide)

/-! ### Claim C4 -/

/-- C4 counterexample: the objetos document is the parsed array wrapped
under an `items` field, not the parsed file content itself, so the upload
is not verbatim for every file. -/
theorem uploadObjetosDoc_not_verbatim :
    uploadObjetosDoc (JSVal.arr []) ≠ JSVal.arr [] := by
  intro h
  exact JSVal.noConfusion h

/-- C4 amended: `historia_base.json` and `sistema-especializacao.json`
are written verbatim; `objetos.json` and `pistas.json` are wrapped as the
`items` field of their documents; each ambientes (and personagens) file
entry is stored under its id key rather than verbatim. -/
theorem uploadDocs_shape :
    (∀ data : JSVal, uploadHistoriaBaseDoc data = data) ∧
    (∀ data : JSVal, uploadSistemaEspecializacaoDoc data = data) ∧
    (∀ data : JSVal, uploadObjetosDoc data = JSVal.obj [(s2l "items", data)]) ∧
    (∀ data : JSVal, uploadPistasDoc data = JSVal.obj [(s2l "items", data)]) ∧
    (∀ loc : JSVal, uploadAmbientesDoc [JSVal.arr [loc]] =
      JSVal.obj [(locationKey loc, loc)]) :=
  ⟨fun _ => rfl, fun _ => rfl, fun _ => rfl, fun _ => rfl, fun _ => rfl⟩

/-! ### Claim C5 -/

/-- C5: a detail of the current area is offered for exploration exactly
when its `discovery_level_required` is at most the player's discovery
level for the current area, and a never-explored area has discovery
level 0. -/
theorem visibleDetails_iff (s : PlayerState) (area : Area) (d : Detail) :
    (d ∈ visibleDetails s area ↔
      d ∈ area.details.getD [] ∧
        d.discovery_level_required ≤ getLocationDiscoveryLevel s s.currentArea) ∧
    (∀ areaId : Int, getA s.locationLevels areaId = none →
      getLocationDiscoveryLevel s areaId = 0) := by
  constructor
  · simp [visibleDetails, List.mem_filter]
  · intro areaId h
    simp [getLocationDiscoveryLevel, getAD, h]

/-- Concrete area with one always-visible detail. -/
def c5Area : Area :=
  { area_id := 1, details := some [{ detail_id := 1, discovery_level_required := 0 }] }

/-- Witness for C5: in the fresh state the unexplored current area has
level 0 and its level-0 detail is offered. -/
theorem visibleDetails_iff_witness :
    ({ detail_id := 1, discovery_level_required := 0 } : Detail) ∈
      visibleDetails freshState c5Area ∧
    getLocationDiscoveryLevel freshState 1 = 0 :=
  ⟨(visibleDetails_iff freshState c5Area
      { detail_id := 1, discovery_level_required := 0 }).1.mpr (by decide),
   (visibleDetails_iff freshState c5Area
      { detail_id := 1, discovery_level_required := 0 }).2 1 (by decide)⟩

/-! ### Claim C6 -/

theorem computeSkillLevel_foldl (points : Int) (niveis : List (Int × Int)) (a : Int) :
    niveis.foldl (fun acc p => if points ≥ p.2 then p.1 else acc) a =
      ((niveis.filter fun p => decide (points ≥ p.2)).map Prod.fst).getLastD a := by
  induction niveis generalizing a with
  | nil => simp
  | cons p rest ih =>
    by_cases h : points ≥ p.2
    · have hd : decide (points ≥ p.2) = true := by simp [h]
      simp only [List.foldl_cons, if_pos h, ih, List.filter_cons, hd, if_true, List.map_cons,
        List.getLastD_cons]
    · have hd : decide (points ≥ p.2) = false := by simp [h]
      simp only [List.foldl_cons, if_neg h, ih, List.filter_cons, hd, Bool.false_eq_true,
        if_false]

theorem getLastD_mem_of_ne_nil (l : List Int) (hl : l ≠ []) (a : Int) : l.getLastD a ∈ l := by
  induction l generalizing a with
  | nil => exact absurd rfl hl
  | cons x rest ih =>
    rw [List.getLastD_cons]
    cases hr : rest with
    | nil => simp [hr]
    | cons y r2 =>
      subst hr
      exact List.mem_cons_of_mem _ (ih (by simp) x)

theorem pairwise_getLastD_max (l : List Int) (hl : l.Pairwise (· < ·)) (k : Int) (hk : k ∈ l)
    (a : Int) : k ≤ l.getLastD a := by
  induction l generalizing a with
  | nil => simp at hk
  | cons x rest ih =>
    rw [List.getLastD_cons]
    rcases List.mem_cons.mp hk with h1 | h2
    · subst h1
      cases hr : rest with
      | nil => simp [hr]
      | cons y r2 =>
        subst hr
        have hmem : (y :: r2).getLastD k ∈ y :: r2 :=
          getLastD_mem_of_ne_nil _ (by simp) _
        exact le_of_lt ((List.pairwise_cons.mp hl).1 _ hmem)
    · exact ih (List.pairwise_cons.mp hl).2 h2 x

/-- C6: the level reported by `getSkillInfo` is the largest configured
level whose threshold is at most the skill's points, and 0 when no
threshold is reached, provided the `niveis` entries are listed in
increasing order of their level key. -/
theorem getSkillInfo_level_largest (g : GameData) (s : PlayerState) (info : SkillInfo)
    (hinfo : info ∈ getSkillInfo g s) (cat : SkillCategory)
    (hcat : findCategory g info.id = some cat)
    (hsorted : cat.niveis.Pairwise (fun p q => p.1 < q.1)) :
    ((cat.niveis.filter fun p => decide (info.points ≥ p.2)).map Prod.fst = [] →
      info.level = 0) ∧
    ((cat.niveis.filter fun p => decide (info.points ≥ p.2)).map Prod.fst ≠ [] →
      info.level ∈ (cat.niveis.filter fun p => decide (info.points ≥ p.2)).map Prod.fst ∧
      ∀ k ∈ (cat.niveis.filter fun p => decide (info.points ≥ p.2)).map Prod.fst,
        k ≤ info.level) := by
  have hlevel : info.level = computeSkillLevel cat.niveis info.points := by
    simp only [getSkillInfo, List.mem_map] at hinfo
    obtain ⟨sp, _, heq⟩ := hinfo
    subst heq
    simp only at hcat
    simp [hcat]
  have hfold := computeSkillLevel_foldl info.points cat.niveis 0
  rw [hlevel, computeSkillLevel, hfold]
  constructor
  · intro hnil
    rw [hnil]
    simp
  · intro hne
    have hpw : ((cat.niveis.filter fun p => decide (info.points ≥ p.2)).map Prod.fst).Pairwise
        (· < ·) :=
      List.Pairwise.map _ (fun _ _ hab => hab) (List.Pairwise.filter _ hsorted)
    exact ⟨getLastD_mem_of_ne_nil _ hne _,
      fun k hk => pairwise_getLastD_max _ hpw k hk 0⟩

/-- Concrete specialization data (the shipped `analise_evidencias`
thresholds). -/
def c6Game : GameData :=
  { solution_criteria := { culprit_id := 0 },
    sistema_especializacao := some
      { categorias := [{ nome_interno := s2l "analise_evidencias",
                         niveis := [(1, 15), (2, 40), (3, 80)] }] } }

/-- A player with 40 points in that skill. -/
def c6State : PlayerState := { skills := [(s2l "analise_evidencias", 40)] }

/-- The skill record `getSkillInfo` builds for it. -/
def c6Info : SkillInfo := { id := s2l "analise_evidencias", level := 2, points := 40 }

/-- The category found for it. -/
def c6Cat : SkillCategory :=
  { nome_interno := s2l "analise_evidencias", niveis := [(1, 15), (2, 40), (3, 80)] }

/-- Witness for C6: with 40 points against thresholds 15/40/80 the
reported level 2 is the largest reached level key. -/
theorem getSkillInfo_level_largest_witness :
    c6Info ∈ getSkillInfo c6Game c6State ∧
    ((c6Cat.niveis.filter fun p => decide (c6Info.points ≥ p.2)).map Prod.fst ≠ [] →
      c6Info.level ∈ (c6Cat.niveis.filter fun p => decide (c6Info.points ≥ p.2)).map Prod.fst ∧
      ∀ k ∈ (c6Cat.niveis.filter fun p => decide (c6Info.points ≥ p.2)).map Prod.fst,
        k ≤ c6Info.level) :=
  ⟨by decide,
   (getSkillInfo_level_largest c6Game c6State c6Info (by decide) c6Cat (by decide)
      (by decide)).2⟩

/-! ### Claim C7 -/

theorem knowledgeFor_eq_join (c : Character) (characterLevel : Int) :
    knowledgeFor c characterLevel =
      (((c.levels.getD []).filter fun lv => decide (lv.level_number ≤ characterLevel)).map
        (fun lv => lv.knowledge_scope ++ s2l " ")).flatten := by
  have haux : ∀ (lvls : List CharLevel) (acc : Str),
      lvls.foldl (fun acc2 lv =>
          if lv.level_number ≤ characterLevel then acc2 ++ lv.knowledge_scope ++ s2l " "
          else acc2) acc =
        acc ++ ((lvls.filter fun lv => decide (lv.level_number ≤ characterLevel)).map
          (fun lv => lv.knowledge_scope ++ s2l " ")).flatten := by
    intro lvls
    induction lvls with
    | nil => intro acc; simp
    | cons lv rest ih =>
      intro acc
      by_cases h : lv.level_number ≤ characterLevel
      · rw [List.foldl_cons, if_pos h, ih]
        have hd : decide (lv.level_number ≤ characterLevel) = true := by simp [h]
        simp [List.filter_cons, hd, List.append_assoc]
      · rw [List.foldl_cons, if_neg h, ih]
        have hd : decide (lv.level_number ≤ characterLevel) = false := by simp [h]
        simp [List.filter_cons, hd]
  simpa [knowledgeFor] using haux (c.levels.getD []) []

/-- A provider that yields an empty completion text. -/
def c7EmptyProvider : ChatRequest → ProviderResult := fun _ => ProviderResult.ok (some [])

/-- A minimal character. -/
def c7Char : Character := { character_id := 1 }

/-- C7 counterexample: when the provider's completion text is the empty
string, `generateNPCDialogue` does not return it unchanged but the fixed
fallback sentence (the `||` default also fires on the falsy `""`). -/
theorem generateNPCDialogue_empty_not_passthrough :
    generateNPCDialogue true c7EmptyProvider c7Char 0 [] =
      s2l "Não sei o que dizer sobre isso." ∧
    s2l "Não sei o que dizer sobre isso." ≠ ([] : Str) := by
  constructor
  · rfl
  · decide

/-- C7 amended: the provider request is pure template substitution
(name, personality, the concatenated `knowledge_scope` of the levels up
to the character level, and the question inserted into fixed prompt
strings); the completion text is returned unchanged whenever it is
non-empty; with no API key, on a failed call, or on a missing or empty
completion, a fixed fallback sentence is returned instead. -/
theorem generateNPCDialogue_template (provider : ChatRequest → ProviderResult)
    (c : Character) (characterLevel : Int) (q : Str) :
    npcDialogueRequest c characterLevel q =
      { model := s2l "gpt-3.5-turbo",
        systemContent := buildSystemPrompt (strOrDefault c.name (s2l "Personagem"))
          (strOrDefault c.personality [])
          ((((c.levels.getD []).filter fun lv => decide (lv.level_number ≤ characterLevel)).map
            (fun lv => lv.knowledge_scope ++ s2l " ")).flatten),
        userContent := buildUserPrompt (strOrDefault c.name (s2l "Personagem")) q } ∧
    generateNPCDialogue false provider c characterLevel q =
      s2l "Não consigo responder a isso no momento." ∧
    (provider (npcDialogueRequest c characterLevel q) = .err →
      generateNPCDialogue true provider c characterLevel q =
        s2l "Não sei o que dizer sobre isso.") ∧
    (∀ t2, provider (npcDialogueRequest c characterLevel q) = .ok (some t2) → t2 ≠ [] →
      generateNPCDialogue true provider c characterLevel q = t2) ∧
    ((provider (npcDialogueRequest c characterLevel q) = .ok none ∨
      provider (npcDialogueRequest c characterLevel q) = .ok (some [])) →
      generateNPCDialogue true provider c characterLevel q =
        s2l "Não sei o que dizer sobre isso.") := by
  refine ⟨?_, rfl, ?_, ?_, ?_⟩
  · simp [npcDialogueRequest, knowledgeFor_eq_join]
  · intro h
    simp [generateNPCDialogue, h]
  · intro t2 h hne
    simp [generateNPCDialogue, h, hne]
  · intro h
    rcases h with h | h <;> simp [generateNPCDialogue, h]

/-- A provider answering a fixed non-empty text. -/
def c7Provider : ChatRequest → ProviderResult := fun _ => ProviderResult.ok (some (s2l "ola"))

/-- Witness for C7: a non-empty completion is passed through unchanged. -/
theorem generateNPCDialogue_template_witness :
    generateNPCDialogue true c7Provider c7Char 0 (s2l "oi") = s2l "ola" :=
  (generateNPCDialogue_template c7Provider c7Char 0 (s2l "oi")).2.2.2.1 (s2l "ola") rfl
    (by decide)

/-! ### Claim C8 -/

/-- The shipped "object"-typed requirement of Matilda's wine trigger
(src/unnamed/part_007). -/
def matildaWineReq : Requirement :=
  { requirement_type := s2l "object", required_object_id := some (.many [10, 15]) }

/-- C8: a trigger without a `requirements` field always passes, and a
requirement whose type is none of "evidence"/"knowledge"/"observation"
(such as the shipped "object" requirement) is skipped and never blocks
the success branch. -/
theorem checkDialogueRequirements_skips (s : PlayerState) (t : Trigger) (r : Requirement)
    (reqs : List Requirement)
    (hskip : r.requirement_type ∉ [s2l "evidence", s2l "knowledge", s2l "observation"]) :
    (t.requirements = none → checkDialogueRequirements s t = true) ∧
    reqSatisfied s r = true ∧
    checkDialogueRequirements s { t with requirements := some (r :: reqs) } =
      checkDialogueRequirements s { t with requirements := some reqs } ∧
    reqSatisfied s matildaWineReq = true := by
  simp only [List.mem_cons, List.mem_singleton, not_or] at hskip
  obtain ⟨hne1, hne2, hne3, -⟩ := hskip
  have hb1 : (r.requirement_type == s2l "evidence") = false := beq_eq_false_iff_ne.mpr hne1
  have hb2 : (r.requirement_type == s2l "knowledge") = false := beq_eq_false_iff_ne.mpr hne2
  have hb3 : (r.requirement_type == s2l "observation") = false := beq_eq_false_iff_ne.mpr hne3
  have hr : reqSatisfied s r = true := by
    simp [reqSatisfied, hb1, hb2, hb3]
  have hmw : reqSatisfied s matildaWineReq = true := by
    have h1 : (matildaWineReq.requirement_type == s2l "evidence") = false := by decide
    have h2 : (matildaWineReq.requirement_type == s2l "knowledge") = false := by decide
    have h3 : (matildaWineReq.requirement_type == s2l "observation") = false := by decide
    simp [reqSatisfied, h1, h2, h3]
  refine ⟨?_, hr, ?_, hmw⟩
  · intro h
    simp [checkDialogueRequirements, h]
  · simp [checkDialogueRequirements, List.all_cons, hr]

/-- Witness for C8 on the shipped "object" requirement and an empty
fresh state. -/
theorem checkDialogueRequirements_skips_witness :
    (({} : Trigger).requirements = none → checkDialogueRequirements freshState {} = true) ∧
    reqSatisfied freshState matildaWineReq = true ∧
    checkDialogueRequirements freshState
        { ({} : Trigger) with requirements := some [matildaWineReq] } =
      checkDialogueRequirements freshState { ({} : Trigger) with requirements := some [] } ∧
    reqSatisfied freshState matildaWineReq = true :=
  checkDialogueRequirements_skips freshState {} matildaWineReq [] (by decide)

/-! ### Claim C9 -/

theorem discoverClueByDetailGo_nodup (locationId areaId detailId : Int) (s : PlayerState)
    (cs : List Clue) (h : s.discoveredClues.Nodup) :
    (discoverClueByDetailGo locationId areaId detailId s cs).2.discoveredClues.Nodup := by
  induction cs with
  | nil => simpa [discoverClueByDetailGo] using h
  | cons clue rest ih =>
    by_cases h1 : clueMatchesDetail clue locationId areaId detailId = true
    · by_cases h2 : clue.clue_id ∈ s.discoveredClues
      · simp [discoverClueByDetailGo, h1, h2]
        exact ih
      · simp [discoverClueByDetailGo, h1, h2]
        exact nodup_append_one _ _ h h2
    · simp [discoverClueByDetailGo, h1]
      exact ih

/-- C9: the inventory, the discovered-clue list and each per-area
seen-detail list stay duplicate-free under every appending operation,
and `collectObject` returns true exactly when the object is new. -/
theorem collections_nodup (g : GameData) (s : PlayerState)
    (objectId locationId areaId detailId characterId : Int) :
    (s.inventory.Nodup →
      ((collectObject s objectId).2.inventory.Nodup ∧
        ((collectObject s objectId).1 = true ↔ objectId ∉ s.inventory))) ∧
    (s.discoveredClues.Nodup →
      (discoverClueByDetail g s locationId areaId detailId).2.discoveredClues.Nodup) ∧
    (s.discoveredClues.Nodup →
      (discoverCluesByCharacter g s characterId).2.discoveredClues.Nodup) ∧
    ((∀ p ∈ s.lastSeenDetails, (Prod.snd p).Nodup) →
      ∀ p ∈ (markDetailAsSeen s areaId detailId).lastSeenDetails, (Prod.snd p).Nodup) := by
  refine ⟨?_, ?_, ?_, ?_⟩
  · intro h
    constructor
    · by_cases h2 : objectId ∈ s.inventory
      · simp [collectObject, h2]
        exact h
      · simp [collectObject, h2]
        exact nodup_append_one _ _ h h2
    · by_cases h2 : objectId ∈ s.inventory <;> simp [collectObject, h2]
  · intro h
    exact discoverClueByDetailGo_nodup _ _ _ _ _ h
  · intro h
    simp only [discoverCluesByCharacter]
    exact discoverCluesGo_nodup _ _ _ h
  · intro hall p hp
    by_cases hd : detailId ∈ getAD s.lastSeenDetails areaId []
    · simp [markDetailAsSeen, hd] at hp
      exact hall p hp
    · have hcur : (getAD s.lastSeenDetails areaId []).Nodup := by
        cases hga : getA s.lastSeenDetails areaId with
        | none => simp [getAD, hga]
        | some l =>
          have hm := getA_mem _ _ _ hga
          have := hall (areaId, l) hm
          simpa [getAD, hga] using this
      simp [markDetailAsSeen, hd] at hp
      rcases mem_setA _ _ _ _ hp with h1 | h2
      · exact hall p h1
      · rw [h2]
        exact nodup_append_one _ _ hcur hd

/-- Witness for C9 at concrete inputs over the fresh state. -/
theorem collections_nodup_witness :
    (collectObject freshState 5).2.inventory.Nodup ∧
    ((collectObject freshState 5).1 = true ↔ 5 ∉ freshState.inventory) ∧
    (discoverClueByDetail c2Game freshState 1 1 1).2.discoveredClues.Nodup ∧
    (discoverCluesByCharacter c2Game freshState 3).2.discoveredClues.Nodup ∧
    ∀ p ∈ (markDetailAsSeen freshState 1 2).lastSeenDetails, (Prod.snd p).Nodup := by
  have h := collections_nodup c2Game freshState 5 1 1 2 3
  exact ⟨(h.1 (by decide)).1, (h.1 (by decide)).2, h.2.1 (by decide), h.2.2.1 (by decide),
    h.2.2.2 (by decide)⟩

/-! ### Claim C10 -/

theorem skillGain_bounds (m : List (Str × Int)) (key : Str) (inc : Int) (hinc : 0 ≤ inc)
    (hall : ∀ p ∈ m, (Prod.snd p) ≤ 100) :
    (∀ p ∈ setA m key (min (getAD m key 0 + inc) 100), (Prod.snd p) ≤ 100) ∧
    (∀ k : Str, getAD m k 0 ≤ getAD (setA m key (min (getAD m key 0 + inc) 100)) k 0 ∧
      getAD (setA m key (min (getAD m key 0 + inc) 100)) k 0 ≤ getAD m k 0 + inc) := by
  have hold : getAD m key 0 ≤ 100 := by
    cases hga : getA m key with
    | none => simp [getAD, hga]
    | some v =>
      have := hall (key, v) (getA_mem _ _ _ hga)
      simpa [getAD, hga] using this
  constructor
  · intro p hp
    rcases mem_setA _ _ _ _ hp with h1 | h2
    · exact hall p h1
    · rw [h2]
      exact min_le_right _ _
  · intro k
    by_cases hk : k = key
    · subst hk
      rw [show getAD (setA m k (min (getAD m k 0 + inc) 100)) k 0 =
            min (getAD m k 0 + inc) 100 by simp [getAD, getA_setA_self]]
      exact ⟨le_min (by omega) hold, min_le_left _ _⟩
    · rw [show getAD (setA m key (min (getAD m key 0 + inc) 100)) k 0 = getAD m k 0 by
        simp [getAD, getA_setA_ne _ _ _ _ hk]]
      exact ⟨le_refl _, by omega⟩

/-- C10: the per-area discovery level never exceeds 3, a skill's points
never exceed 100, an object's discovery level never exceeds the index of
its last defined level, and each operation moves its counter up by at
most one step (10 skill points via object examination, 5 via sending a
message), never down. -/
theorem progression_monotone_bounded (g : GameData) (s : PlayerState) (areaId objectId : Int) :
    (getLocationDiscoveryLevel (increaseLocationDiscovery s areaId) areaId ≤ 3 ∧
      (getLocationDiscoveryLevel s areaId ≤ 3 →
        getLocationDiscoveryLevel s areaId ≤
          getLocationDiscoveryLevel (increaseLocationDiscovery s areaId) areaId) ∧
      getLocationDiscoveryLevel (increaseLocationDiscovery s areaId) areaId ≤
        getLocationDiscoveryLevel s areaId + 1) ∧
    (getObjectDiscoveryLevel s objectId ≤
        getObjectDiscoveryLevel (increaseObjectDiscoveryLevel g s objectId).2 objectId ∧
      getObjectDiscoveryLevel (increaseObjectDiscoveryLevel g s objectId).2 objectId ≤
        getObjectDiscoveryLevel s objectId + 1 ∧
      (∀ obj, getObjectById g objectId = some obj →
        getObjectDiscoveryLevel s objectId ≤ (obj.levels.length : Int) - 1 →
        getObjectDiscoveryLevel (increaseObjectDiscoveryLevel g s objectId).2 objectId ≤
          (obj.levels.length : Int) - 1)) ∧
    ((∀ p ∈ s.skills, (Prod.snd p) ≤ 100) →
      (∀ p ∈ (increaseSkillByObject s objectId).2.skills, (Prod.snd p) ≤ 100) ∧
      (∀ k : Str, getAD s.skills k 0 ≤ getAD (increaseSkillByObject s objectId).2.skills k 0 ∧
        getAD (increaseSkillByObject s objectId).2.skills k 0 ≤ getAD s.skills k 0 + 10)) ∧
    ((∀ p ∈ s.skills, (Prod.snd p) ≤ 100) →
      (∀ p ∈ (sendMessageSkillGain s).skills, (Prod.snd p) ≤ 100) ∧
      (∀ k : Str, getAD s.skills k 0 ≤ getAD (sendMessageSkillGain s).skills k 0 ∧
        getAD (sendMessageSkillGain s).skills k 0 ≤ getAD s.skills k 0 + 5)) := by
  refine ⟨?_, ?_, ?_, ?_⟩
  · have hloc : getLocationDiscoveryLevel (increaseLocationDiscovery s areaId) areaId =
        min (getLocationDiscoveryLevel s areaId + 1) 3 := by
      simp [increaseLocationDiscovery, getLocationDiscoveryLevel, getAD, getA_setA_self]
    rw [hloc]
    exact ⟨min_le_right _ _, fun h => le_min (by omega) h, min_le_left _ _⟩
  · cases hobj : getObjectById g objectId with
    | none =>
      simp only [increaseObjectDiscoveryLevel, hobj]
      exact ⟨le_refl _, by omega, fun obj hobj2 => by simp at hobj2⟩
    | some obj =>
      by_cases hlt : getObjectDiscoveryLevel s objectId < (obj.levels.length : Int) - 1
      · have hnew : getObjectDiscoveryLevel (increaseObjectDiscoveryLevel g s objectId).2
            objectId = getObjectDiscoveryLevel s objectId + 1 := by
          simp only [increaseObjectDiscoveryLevel, hobj, if_pos hlt]
          simp [getObjectDiscoveryLevel, getAD, getA_setA_self]
        rw [hnew]
        refine ⟨by omega, by omega, fun obj2 hobj2 hb => ?_⟩
        have heq : obj = obj2 := Option.some.inj hobj2
        subst heq
        omega
      · have hnew : getObjectDiscoveryLevel (increaseObjectDiscoveryLevel g s objectId).2
            objectId = getObjectDiscoveryLevel s objectId := by
          simp only [increaseObjectDiscoveryLevel, hobj, if_neg hlt]
        rw [hnew]
        exact ⟨le_refl _, by omega, fun obj2 hobj2 hb => hb⟩
  · intro hall
    cases hmap : skillMapping objectId with
    | none =>
      simp only [increaseSkillByObject, hmap]
      exact ⟨hall, fun k => ⟨le_refl _, by omega⟩⟩
    | some skill =>
      have hsk : (increaseSkillByObject s objectId).2.skills =
          setA s.skills skill (min (getAD s.skills skill 0 + 10) 100) := by
        simp only [increaseSkillByObject, hmap]
        split <;> rfl
      rw [hsk]
      exact skillGain_bounds s.skills skill 10 (by omega) hall
  · intro hall
    have hsk : (sendMessageSkillGain s).skills =
        setA s.skills (s2l "interpretacao_comportamento")
          (min (getAD s.skills (s2l "interpretacao_comportamento") 0 + 5) 100) := rfl
    rw [hsk]
    exact skillGain_bounds s.skills _ 5 (by omega) hall

/-- Concrete game data with a two-level object. -/
def c10Game : GameData :=
  { solution_criteria := { culprit_id := 0 },
    objetos := [{ object_id := 5, levels := [{}, {}] }] }

/-- Witness for C10 at concrete inputs over the fresh state. -/
theorem progression_monotone_bounded_witness :
    getLocationDiscoveryLevel (increaseLocationDiscovery freshState 1) 1 ≤ 3 ∧
    getObjectDiscoveryLevel (increaseObjectDiscoveryLevel c10Game freshState 5).2 5 ≤
      ((({ object_id := 5, levels := [{}, {}] } : GameObject).levels.length : Int) - 1) ∧
    (∀ p ∈ (increaseSkillByObject freshState 5).2.skills, (Prod.snd p) ≤ 100) ∧
    (∀ p ∈ (sendMessageSkillGain freshState).skills, (Prod.snd p) ≤ 100) := by
  have h := progression_monotone_bounded c10Game freshState 1 5
  exact ⟨h.1.1,
    h.2.1.2.2 { object_id := 5, levels := [{}, {}] } (by decide) (by decide),
    (h.2.2.1 (by decide)).1, (h.2.2.2 (by decide)).1⟩

end EnigmaHunter
